import Mathlib

/-!
Verification of the NachOS file-system orchestration layer
(`code/filesys/filesys.cc`).  The `FileSystem` member functions
(`Create`, `Open`, `Remove`, `Read`, `Write`, `Seek`, `Close`,
`GetSysFd`, `GetOpenFileTable`, `PreprocessPath`, `IsDir`,
`GoDirectory`) are embedded shallowly below, translated line by line
from the source.  The collaborator classes (`Directory`,
`PersistentBitmap`, `FileHeader`, `OpenFile`) are not part of the
source tree; their operations are modelled from the specification
document and are marked as such in their doc comments.
-/

namespace FS

/-- Sector holding the root directory file header (`DirectorySector` in
filesys.cc). -/
def DirectorySector : Nat := 1

/-- Sector holding the free-map file header (`FreeMapSector` in filesys.cc). -/
def FreeMapSector : Nat := 0

/-- Number of entries of every directory table (`NumDirEntries` in
filesys.cc). -/
def NumDirEntries : Nat := 10

/-- Modelled from the spec: fixed sector size of the backing device
(`SectorSize`, defined in disk.h which is not in the source tree); the
concrete value is immaterial to the claims, the reference sizing uses 128. -/
def SectorSize : Nat := 128

/-- Modelled from the spec: capacity of the bounded system-wide open-file
table (`SYS_MAX_OPEN_FILE_NUM`, defined in filesys.h which is not in the
source tree); the reference sizing uses 20. -/
def SYS_MAX_OPEN_FILE_NUM : Nat := 20

/-- Free-sector bitmap content: one boolean per sector, `true` = allocated. -/
abbrev Bitmap := List Bool

/-- Modelled from the spec: `Bitmap::FindAndSet` (bitmap.cc is not in the
source tree) returns the lowest-numbered clear sector, marks it, and
returns its number together with the updated map; `none` when the device
is full. -/
def bmpFindAndSet : Bitmap → Option (Nat × Bitmap)
  | [] => none
  | b :: rest =>
    if b then (bmpFindAndSet rest).map (fun p => (p.1 + 1, b :: p.2))
    else some (0, true :: rest)

/-- Modelled from the spec: `Bitmap::Clear` (bitmap.cc is not in the source
tree) clears the bit of the given sector unconditionally. -/
def bmpClear (sector : Nat) (bm : Bitmap) : Bitmap :=
  bm.set sector false

/-- Modelled from the spec: `Bitmap::Mark` (bitmap.cc is not in the source
tree) sets the bit of the given sector; idempotent. -/
def bmpMark (sector : Nat) (bm : Bitmap) : Bitmap :=
  bm.set sector true

/-- File header (inode): byte length plus the ordered list of data sectors.
filehdr.h is not in the source tree; the record follows the spec. -/
structure FileHeader where
  numBytes : Nat
  dataSectors : List Nat
deriving DecidableEq

/-- Modelled from the spec: the sector-claiming loop of
`FileHeader::Allocate` (filehdr.cc is not in the source tree): claim the
given number of distinct free sectors via repeated `FindAndSet`, failing
when any call returns the full-device sentinel. -/
def allocSectors (bm : Bitmap) : Nat → Option (List Nat × Bitmap)
  | 0 => some ([], bm)
  | n + 1 =>
    match bmpFindAndSet bm with
    | none => none
    | some (s, bm1) => (allocSectors bm1 n).map (fun p => (s :: p.1, p.2))

/-- Modelled from the spec: `FileHeader::Allocate` (filehdr.cc is not in
the source tree) computes `ceil(size / SectorSize)` required sectors and
claims them via `FindAndSet`; on success it returns the recorded data
sectors together with the updated bitmap. -/
def hdrAllocate (bm : Bitmap) (sizeInBytes : Nat) : Option (List Nat × Bitmap) :=
  allocSectors bm ((sizeInBytes + SectorSize - 1) / SectorSize)

/-- Modelled from the spec: `FileHeader::Deallocate` (filehdr.cc is not in
the source tree) clears every recorded data sector in the bitmap, leaving
the header's own storage sector alone. -/
def hdrDeallocate (hdr : FileHeader) (bm : Bitmap) : Bitmap :=
  hdr.dataSectors.foldl (fun b s => bmpClear s b) bm

/-- Directory entry: in-use flag, name (stored with its trailing separator
for sub-directories), header sector.  directory.h is not in the source
tree; the record follows the spec. -/
structure DirEntry where
  inUse : Bool
  name : String
  sector : Nat
deriving DecidableEq

/-- Directory table content: a fixed-length list of entries. -/
abbrev DirTable := List DirEntry

/-- Modelled from the spec: a freshly constructed `Directory(NumDirEntries)`
has every entry not in use. -/
def emptyDirTable : DirTable :=
  List.replicate NumDirEntries ⟨false, "", 0⟩

/-- Modelled from the spec: `Directory::Find` (directory.cc is not in the
source tree): linear scan for an in-use entry whose name matches exactly;
returns its header sector, `none` standing for the code's -1. -/
def dirFind : DirTable → String → Option Nat
  | [], _ => none
  | e :: rest, n =>
    if e.inUse && e.name == n then some e.sector else dirFind rest n

/-- Modelled from the spec: the slot-occupying part of `Directory::Add`:
place the entry in the first not-in-use slot, failing when none is free. -/
def dirAddFree : DirTable → DirEntry → Option DirTable
  | [], _ => none
  | e :: rest, ne =>
    if e.inUse then (dirAddFree rest ne).map (fun t => e :: t)
    else some (ne :: rest)

/-- Modelled from the spec: `Directory::Add` (directory.cc is not in the
source tree) fails if the name already exists or no free slot remains;
otherwise it occupies the first free slot. -/
def dirAdd (t : DirTable) (name : String) (sector : Nat) : Option DirTable :=
  if (dirFind t name).isSome then none
  else dirAddFree t ⟨true, name, sector⟩

/-- Modelled from the spec: `Directory::Remove` (directory.cc is not in the
source tree) marks the first matching in-use entry not in use. -/
def dirRemove : DirTable → String → DirTable
  | [], _ => []
  | e :: rest, n =>
    if e.inUse && e.name == n then { e with inUse := false } :: rest
    else e :: dirRemove rest n

/-- On-disk state visible to this layer: the byte content of the bitmap
file, the directory-table content of every directory file keyed by its
header sector, and the file-header record of every sector. -/
structure Disk where
  bitmap : Bitmap
  dirs : Nat → DirTable
  hdrs : Nat → FileHeader

/-- Write events a `FileSystem` operation performs against the disk, in
program order: a `FileHeader::WriteBack` to a sector, a
`Directory::WriteBack` through a file handle (identified by its header
sector), a bitmap `WriteBack`, and a bitmap fetch (`rbmp`, the
construction of an in-memory `PersistentBitmap` from the free-map file,
recorded so that "the bitmap is not even loaded" is visible). -/
inductive WEvent where
  | whdr (sector : Nat) (h : FileHeader)
  | wdir (sector : Nat) (t : DirTable)
  | wbmp (b : Bitmap)
  | rbmp
deriving DecidableEq

/-- Effect of one write event on the disk; the bitmap fetch changes
nothing. -/
def applyW (d : Disk) : WEvent → Disk
  | WEvent.whdr s h => { d with hdrs := fun x => if x = s then h else d.hdrs x }
  | WEvent.wdir s t => { d with dirs := fun x => if x = s then t else d.dirs x }
  | WEvent.wbmp b => { d with bitmap := b }
  | WEvent.rbmp => d

/-- Directory-file handle held during path resolution: the null pointer,
the always-open root handle `directoryFile`, or a transient
`new OpenFile(sector)`. -/
inductive DirHandle where
  | null
  | root
  | transient (s : Nat)
deriving DecidableEq

/-- Header sector a non-null directory handle is bound to. -/
def hSector : DirHandle → Nat
  | DirHandle.null => 0
  | DirHandle.root => DirectorySector
  | DirHandle.transient s => s

/-- Append a handle to a list of handles when it is transient; used for
both the release bookkeeping (`if (dirFile != directoryFile) delete
dirFile`, where deleting the null pointer is a no-op) and the leak
bookkeeping of `GoDirectory`. -/
def addTransient (l : List DirHandle) : DirHandle → List DirHandle
  | DirHandle.transient s => l ++ [DirHandle.transient s]
  | _ => l

/-- `FileSystem::IsDir`: a name denotes a directory iff its last character
is the separator. -/
def isDir (s : String) : Bool :=
  s.toList.getLast? == some '/'

/-- `FileSystem::PreprocessPath`: split the path into components, each
retaining its trailing separator; a component is pushed when a separator
is met or the path ends. -/
def preprocessPath : List Char → List Char → List String
  | [], _ => []
  | c :: rest, cur =>
    let cur1 := cur ++ [c]
    if c = '/' ∨ rest = [] then String.mk cur1 :: preprocessPath rest []
    else preprocessPath rest cur1

/-- Outcome of `FileSystem::GoDirectory`: the directory handle returned,
the leaf component left in `*name`, and the bookkeeping of every transient
handle created, released (`delete dirFile` on descent), and leaked (a
current transient handle overwritten by a reset to root). -/
structure GoResult where
  handle : DirHandle
  leaf : String
  created : List DirHandle
  released : List DirHandle
  leaked : List DirHandle
deriving DecidableEq

/-- Loop body of `FileSystem::GoDirectory`, translated from the source:
pop the front component; the root marker refetches the root directory and
rebinds the handle to `directoryFile` (overwriting, without deleting, the
previous handle); a directory component is looked up — not found asserts
that no components remain (`ASSERT(pathQueue.empty())`, modelled as the
fatal outcome `none`) and otherwise stops, found with an empty queue
stops, found with components remaining releases the previous non-root
handle and descends; a file component asserts that it is last and stops. -/
def goDirLoop (disk : Disk) :
    List String → DirHandle → DirTable → String →
    List DirHandle → List DirHandle → List DirHandle → Option GoResult
  | [], cur, _, lastName, c, r, l => some ⟨cur, lastName, c, r, l⟩
  | name :: queue, cur, dir, _, c, r, l =>
    if name = "/" then
      goDirLoop disk queue DirHandle.root (disk.dirs DirectorySector) name c r
        (addTransient l cur)
    else if isDir name then
      match dirFind dir name with
      | none => if queue.isEmpty then some ⟨cur, name, c, r, l⟩ else none
      | some s =>
        if queue.isEmpty then some ⟨cur, name, c, r, l⟩
        else
          goDirLoop disk queue (DirHandle.transient s) (disk.dirs s) name
            (c ++ [DirHandle.transient s]) (addTransient r cur) l
    else
      if queue.isEmpty then some ⟨cur, name, c, r, l⟩ else none

/-- `FileSystem::GoDirectory`: preprocess the path and run the resolution
loop starting from a null handle and a freshly constructed (all-free)
directory table; `none` is a failed `ASSERT` (hard stop). -/
def GoDirectory (disk : Disk) (path : String) : Option GoResult :=
  goDirLoop disk (preprocessPath path.toList []) DirHandle.null emptyDirTable
    path [] [] []

/-- `FileSystem::Create`, translated from the source: resolve the
containing directory (dereferencing a null handle in `FetchFrom` is a
crash, modelled as `none`); fail if the leaf exists, if no header sector
is free, if the directory is full, or if data allocation fails — every
failure returns `false` with an empty write-event list; on success write
the header, the directory, an empty table into the new file when the leaf
names a directory, and finally the bitmap. -/
def Create (disk : Disk) (path : String) (initialSize : Nat) :
    Option (Bool × List WEvent) :=
  match GoDirectory disk path with
  | none => none
  | some res =>
    if res.handle = DirHandle.null then none
    else
      match dirFind (disk.dirs (hSector res.handle)) res.leaf with
      | some _ => some (false, [])
      | none =>
        match bmpFindAndSet disk.bitmap with
        | none => some (false, [])
        | some (sector, freeMap1) =>
          match dirAdd (disk.dirs (hSector res.handle)) res.leaf sector with
          | none => some (false, [])
          | some directory1 =>
            match hdrAllocate freeMap1 initialSize with
            | none => some (false, [])
            | some (dataSectors, freeMap2) =>
              some (true,
                [WEvent.whdr sector ⟨initialSize, dataSectors⟩,
                 WEvent.wdir (hSector res.handle) directory1]
                ++ (if isDir res.leaf then [WEvent.wdir sector emptyDirTable]
                    else [])
                ++ [WEvent.wbmp freeMap2])

/-- `FileSystem::Remove`, translated from the source and parameterised by
the collaborator `Directory::RecRemove` (directory.cc is not in the source
tree; per the spec it reclaims the table's contents in the given bitmap
and returns an aggregate success flag, leaving the table itself as it
writes it back): resolve and look up the leaf — not found returns `false`
having loaded nothing; otherwise load the bitmap, recursively reclaim when
asked and the leaf is a directory (writing the sub-table back), deallocate
the leaf's data sectors, clear its header sector, remove its entry, and
write the bitmap then the directory back. -/
def Remove (recRemove : DirTable → Bitmap → Bool × Bitmap) (disk : Disk)
    (path : String) (recurRemoveFlag : Bool) : Option (Bool × List WEvent) :=
  match GoDirectory disk path with
  | none => none
  | some res =>
    if res.handle = DirHandle.null then none
    else
      let dsec := hSector res.handle
      let directory := disk.dirs dsec
      match dirFind directory res.leaf with
      | none => some (false, [])
      | some sector =>
        if recurRemoveFlag && isDir res.leaf then
          let subDir := disk.dirs sector
          let recOut := recRemove subDir disk.bitmap
          let freeMap2 := bmpClear sector (hdrDeallocate (disk.hdrs sector) recOut.2)
          some (recOut.1,
            [WEvent.rbmp, WEvent.wdir sector subDir, WEvent.wbmp freeMap2,
             WEvent.wdir dsec (dirRemove directory res.leaf)])
        else
          let freeMap2 := bmpClear sector (hdrDeallocate (disk.hdrs sector) disk.bitmap)
          some (true,
            [WEvent.rbmp, WEvent.wbmp freeMap2,
             WEvent.wdir dsec (dirRemove directory res.leaf)])

/-- Open-file handle as far as this layer observes it: the header sector
it was constructed from and the descriptor tag assigned by `SetFd`. -/
structure OpenFileH where
  sector : Nat
  fd : Nat
deriving DecidableEq

/-- System-wide open-file table (`sysOpFileTable`, a map from descriptor
to handle; an absent key and a stored null pointer are observably the
same) together with the round-robin cursor `fdPosition`. -/
structure FSState where
  disk : Disk
  table : Nat → Option OpenFileH
  fdPosition : Nat

/-- Scan loop of `FileSystem::GetSysFd`, translated from the source: while
`i < SYS_MAX_OPEN_FILE_NUM`, set `fd = (fd + i) % SYS_MAX_OPEN_FILE_NUM`
(note `fd` accumulates, so the step grows), grant `fd` when its slot is
empty, else increment `i`. -/
def getSysFdAux (table : Nat → Option OpenFileH) :
    Nat → Nat → Nat → Option Nat
  | 0, _, _ => none
  | fuel + 1, i, fd =>
    let fd1 := (fd + i) % SYS_MAX_OPEN_FILE_NUM
    if (table fd1).isNone then some fd1
    else getSysFdAux table fuel (i + 1) fd1

/-- `FileSystem::GetSysFd`: run the scan loop for
`SYS_MAX_OPEN_FILE_NUM` iterations starting with `i = 0` and
`fd = fdPosition`; returns the granted descriptor (the code then sets
`fdPosition` to its successor). -/
def GetSysFd (table : Nat → Option OpenFileH) (fdPosition : Nat) : Option Nat :=
  getSysFdAux table SYS_MAX_OPEN_FILE_NUM 0 fdPosition

/-- `FileSystem::Open`, translated from the source: resolve (a null
handle crashes in `FetchFrom`, modelled as `none`), reject a leaf naming a
directory as a bad path, look up the leaf; on a hit construct the handle
and ask `GetSysFd` for a descriptor — on success tag the handle and (
Modelled from the spec: ownership of the handle is transferred into the
system-wide table, `OpenFile::SetFd` living outside the source tree)
store it, on failure delete the handle and return null. -/
def Open (st : FSState) (path : String) : Option (Option OpenFileH × FSState) :=
  match GoDirectory st.disk path with
  | none => none
  | some res =>
    if res.handle = DirHandle.null then none
    else
      let directory := st.disk.dirs (hSector res.handle)
      if isDir res.leaf then some (none, st)
      else
        match dirFind directory res.leaf with
        | none => some (none, st)
        | some sector =>
          match GetSysFd st.table st.fdPosition with
          | none => some (none, st)
          | some fd =>
            some (some ⟨sector, fd⟩,
              { st with
                table := fun x => if x = fd then some ⟨sector, fd⟩ else st.table x,
                fdPosition := fd + 1 })

/-- `FileSystem::Read`, parameterised by the collaborator
`OpenFile::Read` (openfile.cc is not in the source tree): look the
descriptor up in the system-wide table, return -1 when no live handle is
bound, else delegate. -/
def Read (opRead : OpenFileH → Nat → Int) (st : FSState) (size : Nat)
    (fd : Nat) : Int :=
  match st.table fd with
  | some h => opRead h size
  | none => -1

/-- `FileSystem::Write`, parameterised by the collaborator
`OpenFile::Write` (openfile.cc is not in the source tree): look the
descriptor up, return -1 when no live handle is bound, else delegate. -/
def Write (opWrite : OpenFileH → Nat → Int) (st : FSState) (size : Nat)
    (fd : Nat) : Int :=
  match st.table fd with
  | some h => opWrite h size
  | none => -1

/-- `FileSystem::Seek`: the source body is `return 1;` — no state is read
or written. -/
def Seek (st : FSState) (position : Int) (fd : Nat) : Int × FSState :=
  (1, st)

/-- `FileSystem::Close`: erase the descriptor's entry from the system-wide
table (erasing an absent key is a no-op), delete the handle, return 1. -/
def Close (st : FSState) (fd : Nat) : Int × FSState :=
  (1, { st with table := fun x => if x = fd then none else st.table x })

/-- `FileSystem::GetOpenFileTable`: the table lookup (an absent key yields
the null pointer). -/
def GetOpenFileTable (st : FSState) (fd : Nat) : Option OpenFileH :=
  st.table fd

/-- Definition following the claim's words, not the source, kept for
comparison with `GetSysFd`: a round-robin linear first-free scan of the
table starting at the given position and wrapping modulo the capacity. -/
def getSysFdLinear (table : Nat → Option OpenFileH) (fdPosition : Nat) :
    Option Nat :=
  ((List.range SYS_MAX_OPEN_FILE_NUM).map
    (fun i => (fdPosition + i) % SYS_MAX_OPEN_FILE_NUM)).find?
    (fun fd => (table fd).isNone)

/-! Concrete states used by the witnesses and counterexamples below. -/

/-- Bitmap of a 32-sector device with only the two well-known header
sectors allocated. -/
def bmp0 : Bitmap := true :: true :: List.replicate 30 false

/-- Directory table whose single in-use entry binds the sub-directory
name `a/` to header sector 5. -/
def dirRootA : DirTable := ⟨true, "a/", 5⟩ :: List.replicate 9 ⟨false, "", 0⟩

/-- Directory table whose single in-use entry binds the plain file name
`f` to header sector 4. -/
def dirRootF : DirTable := ⟨true, "f", 4⟩ :: List.replicate 9 ⟨false, "", 0⟩

/-- Directory table whose single in-use entry binds the sub-directory
name `d/` to header sector 5. -/
def dirRootD : DirTable := ⟨true, "d/", 5⟩ :: List.replicate 9 ⟨false, "", 0⟩

/-- Directory table of a non-empty sub-directory: one in-use child entry
`x` at header sector 7. -/
def dirSub : DirTable := ⟨true, "x", 7⟩ :: List.replicate 9 ⟨false, "", 0⟩

/-- Disk whose root directory is empty. -/
def diskEmpty : Disk := ⟨bmp0, fun _ => emptyDirTable, fun _ => ⟨0, []⟩⟩

/-- Disk whose root directory holds the sub-directory `a/` at sector 5. -/
def diskA : Disk :=
  ⟨bmp0, fun s => if s = 1 then dirRootA else emptyDirTable, fun _ => ⟨0, []⟩⟩

/-- Disk whose root directory holds the plain file `f` at sector 4. -/
def diskF : Disk :=
  ⟨bmp0, fun s => if s = 1 then dirRootF else emptyDirTable, fun _ => ⟨0, []⟩⟩

/-- Disk whose root holds the non-empty sub-directory `d/` at sector 5;
the header at sector 5 owns data sector 6. -/
def diskD : Disk :=
  ⟨bmp0,
   fun s => if s = 1 then dirRootD else if s = 5 then dirSub else emptyDirTable,
   fun s => if s = 5 then ⟨100, [6]⟩ else ⟨0, []⟩⟩

/-- Open-file table with descriptors 0 and 1 occupied and every other
slot (in particular slot 2) free. -/
def tblLow : Nat → Option OpenFileH :=
  fun x => if x < 2 then some ⟨9, x⟩ else none

/-- Open-file table with every descriptor occupied except slot 2. -/
def tblAllBut2 : Nat → Option OpenFileH :=
  fun x => if x = 2 then none else some ⟨9, x⟩

/-- File-system state over `diskF` with descriptors 0 and 1 occupied and
the cursor at 0. -/
def stLow : FSState := ⟨diskF, tblLow, 0⟩

/-- File-system state over `diskF` with every descriptor but 2 occupied
and the cursor at 0. -/
def stAllBut2 : FSState := ⟨diskF, tblAllBut2, 0⟩

/-- Constant stand-in for `Directory::RecRemove` reporting success,
used to instantiate the `Remove` theorems. -/
def recRemoveOk : DirTable → Bitmap → Bool × Bitmap := fun _ b => (true, b)

/-- Stand-in for `Directory::RecRemove` reporting a partial failure while
leaving the bitmap as given, used to instantiate the `Remove` theorems. -/
def recRemoveFail : DirTable → Bitmap → Bool × Bitmap := fun _ b => (false, b)

/-- Write events of the successful `Create` of the plain file `f` of 100
bytes on `diskEmpty`: header to sector 2 with data sector 3, directory,
bitmap. -/
def evC2 : List WEvent :=
  [WEvent.whdr 2 ⟨100, [3]⟩,
   WEvent.wdir 1 (⟨true, "f", 2⟩ :: List.replicate 9 ⟨false, "", 0⟩),
   WEvent.wbmp (true :: true :: true :: true :: List.replicate 28 false)]

/-- Claim C3: the descriptor scan of `GetSysFd` is claimed to be a linear
round-robin first-free scan from `fdPosition`, failing only when all
`SYS_MAX_OPEN_FILE_NUM` slots are occupied.  The code instead accumulates
the loop index into the probe (`fd = (fd + i) % N` with `fd` carried
over), probing positions `p, p+1, p+3, p+6, ...`: with slots 0 and 1
occupied it grants 3 where the linear scan grants 2, and with every slot
but 2 occupied it probes 20 times without ever reaching the free slot 2
and reports the table full, so `Open` returns no handle although a slot
is free. -/
theorem getSysFd_probe_bug :
    GetSysFd tblLow 0 = some 3 ∧
    getSysFdLinear tblLow 0 = some 2 ∧
    tblAllBut2 2 = none ∧
    GetSysFd tblAllBut2 0 = none ∧
    getSysFdLinear tblAllBut2 0 = some 2 ∧
    (Open stLow "/f").map Prod.fst = some (some ⟨4, 3⟩) ∧
    (Open stAllBut2 "/f").map Prod.fst = some none := by
  decide

/-- Claim C7: `Read` and `Write` return -1 for a descriptor with no live
handle in the system-wide table, and for a bound descriptor they return
exactly what the underlying handle's byte-range read/write returns. -/
theorem read_write_delegate :
    ∀ (opRead opWrite : OpenFileH → Nat → Int) (st : FSState) (size fd : Nat),
      (GetOpenFileTable st fd = none →
        Read opRead st size fd = -1 ∧ Write opWrite st size fd = -1) ∧
      (∀ h, GetOpenFileTable st fd = some h →
        Read opRead st size fd = opRead h size ∧
        Write opWrite st size fd = opWrite h size) := by
  intro opRead opWrite st size fd
  constructor
  · intro hnone
    constructor <;> simp [Read, Write, GetOpenFileTable] at * <;> rw [hnone]
  · intro h hsome
    constructor <;> simp [Read, Write, GetOpenFileTable] at * <;> rw [hsome]

/-- Witness for claim C7 at a concrete table: descriptor 5 is absent and
descriptor 0 is bound. -/
theorem read_write_delegate_w :
    (GetOpenFileTable stLow 5 = none ∧
      Read (fun h s => h.sector + s) stLow 3 5 = -1 ∧
      Write (fun h s => h.sector * s) stLow 3 5 = -1) ∧
    (GetOpenFileTable stLow 0 = some ⟨9, 0⟩ ∧
      Read (fun h s => h.sector + s) stLow 3 0 = 12 ∧
      Write (fun h s => h.sector * s) stLow 3 0 = 27) := by
  refine ⟨⟨by decide, ?_⟩, ⟨by decide, ?_⟩⟩
  · exact (read_write_delegate (fun h s => h.sector + s) (fun h s => h.sector * s)
      stLow 3 5).1 (by decide)
  · exact (read_write_delegate (fun h s => h.sector + s) (fun h s => h.sector * s)
      stLow 3 0).2 ⟨9, 0⟩ (by decide)

/-- Claim C8: `Close` reports success, removes the descriptor's entry and
touches no other slot; closing an absent or already-closed descriptor
leaves the table intact (and closing twice equals closing once); after a
`Close` the freed slot is free in the table and the descriptor scan
started at it grants it again. -/
theorem close_tolerant_and_reuse :
    ∀ (st : FSState) (fd : Nat),
      (Close st fd).1 = 1 ∧
      GetOpenFileTable (Close st fd).2 fd = none ∧
      (∀ x, x ≠ fd → GetOpenFileTable (Close st fd).2 x = GetOpenFileTable st x) ∧
      (GetOpenFileTable st fd = none → (Close st fd).2.table = st.table) ∧
      (Close (Close st fd).2 fd).2.table = (Close st fd).2.table ∧
      (fd < SYS_MAX_OPEN_FILE_NUM → GetSysFd (Close st fd).2.table fd = some fd) := by
  intro st fd
  refine ⟨rfl, by simp [Close, GetOpenFileTable], ?_, ?_, ?_, ?_⟩
  · intro x hx
    simp [Close, GetOpenFileTable, hx]
  · intro hnone
    simp only [GetOpenFileTable] at hnone
    funext x
    by_cases hx : x = fd
    · subst hx; simp [Close, hnone]
    · simp [Close, hx]
  · funext x
    by_cases hx : x = fd <;> simp [Close, hx]
  · intro hfd
    have hmod : (fd + 0) % SYS_MAX_OPEN_FILE_NUM = fd := by
      simpa using Nat.mod_eq_of_lt hfd
    unfold GetSysFd
    rw [show SYS_MAX_OPEN_FILE_NUM = 19 + 1 from rfl]
    rw [getSysFdAux, hmod]
    simp [Close]

/-- Witness for claim C8 at a concrete state: closing the live descriptor
0 frees it for the scan, and closing the absent descriptor 5 leaves the
table untouched. -/
theorem close_tolerant_and_reuse_w :
    GetSysFd (Close stLow 0).2.table 0 = some 0 ∧
    (Close stLow 5).2.table = stLow.table := by
  constructor
  · exact (close_tolerant_and_reuse stLow 0).2.2.2.2.2 (by decide)
  · exact (close_tolerant_and_reuse stLow 5).2.2.2.1 (by decide)

/-- Claim C4: a `Remove` whose leaf is not found in the resolved
directory returns `false` having performed no write-back and not even
loaded the bitmap (the empty event list), so the on-disk bitmap and
directory are unchanged. -/
theorem remove_notfound_no_writeback :
    ∀ (recRemove : DirTable → Bitmap → Bool × Bitmap) (disk : Disk)
      (path : String) (flag : Bool) (res : GoResult),
      GoDirectory disk path = some res →
      res.handle ≠ DirHandle.null →
      dirFind (disk.dirs (hSector res.handle)) res.leaf = none →
      Remove recRemove disk path flag = some (false, []) ∧
        List.foldl applyW disk ([] : List WEvent) = disk := by
  intro recRemove disk path flag res hg hnull hfind
  refine ⟨?_, rfl⟩
  unfold Remove
  simp [hg, hnull, hfind]

/-- Witness for claim C4: removing the absent name `nope` from the empty
root directory. -/
theorem remove_notfound_no_writeback_w :
    GoDirectory diskEmpty "/nope" = some ⟨DirHandle.root, "nope", [], [], []⟩ ∧
    Remove recRemoveOk diskEmpty "/nope" false = some (false, []) := by
  refine ⟨by decide, ?_⟩
  exact (remove_notfound_no_writeback recRemoveOk diskEmpty "/nope" false
    ⟨DirHandle.root, "nope", [], [], []⟩ (by decide) (by decide) (by decide)).1

/-- Claim C5: a recursive `Remove` of an existing directory leaf first
hands the in-memory bitmap to `RecRemove` on the sub-directory's table,
only then deallocates the leaf's own data sectors and clears its header
sector on the reclaimed bitmap, removes the leaf's entry, and writes the
bitmap and the containing directory back whatever the aggregate flag
says; the returned value is exactly the aggregate flag of the recursive
step. -/
theorem remove_recursive_order_and_flag :
    ∀ (recRemove : DirTable → Bitmap → Bool × Bitmap) (disk : Disk)
      (path : String) (res : GoResult) (sector : Nat),
      GoDirectory disk path = some res →
      res.handle ≠ DirHandle.null →
      dirFind (disk.dirs (hSector res.handle)) res.leaf = some sector →
      isDir res.leaf = true →
      Remove recRemove disk path true =
        some ((recRemove (disk.dirs sector) disk.bitmap).1,
          [WEvent.rbmp,
           WEvent.wdir sector (disk.dirs sector),
           WEvent.wbmp (bmpClear sector (hdrDeallocate (disk.hdrs sector)
             (recRemove (disk.dirs sector) disk.bitmap).2)),
           WEvent.wdir (hSector res.handle)
             (dirRemove (disk.dirs (hSector res.handle)) res.leaf)]) := by
  intro recRemove disk path res sector hg hnull hfind hdir
  unfold Remove
  simp [hg, hnull, hfind, hdir]

/-- Witness for claim C5: recursively removing the non-empty directory
`d/` with a partially failing reclamation still writes everything back
and reports the aggregate failure. -/
theorem remove_recursive_order_and_flag_w :
    GoDirectory diskD "/d/" = some ⟨DirHandle.root, "d/", [], [], []⟩ ∧
    Remove recRemoveFail diskD "/d/" true =
      some (false,
        [WEvent.rbmp,
         WEvent.wdir 5 dirSub,
         WEvent.wbmp (bmpClear 5 (hdrDeallocate ⟨100, [6]⟩ bmp0)),
         WEvent.wdir 1 (dirRemove dirRootD "d/")]) := by
  refine ⟨by decide, ?_⟩
  exact remove_recursive_order_and_flag recRemoveFail diskD "/d/"
    ⟨DirHandle.root, "d/", [], [], []⟩ 5 (by decide) (by decide) (by decide)
    (by decide)

/-- Claim C6: a non-recursive `Remove` of an existing entry — even a
non-empty directory — never reclaims children: it clears only the leaf's
own data sectors and header sector, removes the entry, writes the bitmap
and directory back, and returns `true` (the entry is removed, not
rejected), for every possible `RecRemove` collaborator. -/
theorem remove_nonrecursive_keeps_children :
    ∀ (recRemove : DirTable → Bitmap → Bool × Bitmap) (disk : Disk)
      (path : String) (res : GoResult) (sector : Nat),
      GoDirectory disk path = some res →
      res.handle ≠ DirHandle.null →
      dirFind (disk.dirs (hSector res.handle)) res.leaf = some sector →
      Remove recRemove disk path false =
        some (true,
          [WEvent.rbmp,
           WEvent.wbmp (bmpClear sector (hdrDeallocate (disk.hdrs sector)
             disk.bitmap)),
           WEvent.wdir (hSector res.handle)
             (dirRemove (disk.dirs (hSector res.handle)) res.leaf)]) := by
  intro recRemove disk path res sector hg hnull hfind
  unfold Remove
  simp [hg, hnull, hfind]

/-- Witness for claim C6: non-recursively removing the non-empty
directory `d/` removes only its own entry and sectors and succeeds; the
child entry's sectors are untouched. -/
theorem remove_nonrecursive_keeps_children_w :
    dirFind dirSub "x" = some 7 ∧
    Remove recRemoveFail diskD "/d/" false =
      some (true,
        [WEvent.rbmp,
         WEvent.wbmp (bmpClear 5 (hdrDeallocate ⟨100, [6]⟩ bmp0)),
         WEvent.wdir 1 (dirRemove dirRootD "d/")]) := by
  refine ⟨by decide, ?_⟩
  exact remove_nonrecursive_keeps_children recRemoveFail diskD "/d/"
    ⟨DirHandle.root, "d/", [], [], []⟩ 5 (by decide) (by decide) (by decide)

/-- Claim C1: every `Create` that returns `false` — and it does so
exactly when the leaf already exists in the resolved directory, no free
sector remains for the header, the directory table is full, or
data-sector allocation fails — performs no write-back at all, leaving the
on-disk bitmap and directory contents unchanged. -/
theorem create_failure_writes_nothing :
    ∀ (disk : Disk) (path : String) (n : Nat) (evs : List WEvent),
      Create disk path n = some (false, evs) →
      evs = [] ∧ List.foldl applyW disk evs = disk ∧
      ∃ res, GoDirectory disk path = some res ∧ res.handle ≠ DirHandle.null ∧
        ((dirFind (disk.dirs (hSector res.handle)) res.leaf).isSome = true ∨
         bmpFindAndSet disk.bitmap = none ∨
         (∃ sector freeMap1,
            bmpFindAndSet disk.bitmap = some (sector, freeMap1) ∧
            dirAdd (disk.dirs (hSector res.handle)) res.leaf sector = none) ∨
         (∃ sector freeMap1 directory1,
            bmpFindAndSet disk.bitmap = some (sector, freeMap1) ∧
            dirAdd (disk.dirs (hSector res.handle)) res.leaf sector =
              some directory1 ∧
            hdrAllocate freeMap1 n = none)) := by
  intro disk path n evs h
  unfold Create at h
  split at h
  · exact absurd h (by simp)
  rename_i res hg
  split at h
  · exact absurd h (by simp)
  rename_i hnull
  split at h
  · rename_i v hfind
    obtain rfl : evs = [] := by simpa using h.symm
    exact ⟨rfl, rfl, res, hg, hnull, Or.inl (by simp [hfind])⟩
  rename_i hfind
  split at h
  · rename_i hbmp
    obtain rfl : evs = [] := by simpa using h.symm
    exact ⟨rfl, rfl, res, hg, hnull, Or.inr (Or.inl hbmp)⟩
  rename_i sector freeMap1 hbmp
  split at h
  · rename_i hadd
    obtain rfl : evs = [] := by simpa using h.symm
    exact ⟨rfl, rfl, res, hg, hnull,
      Or.inr (Or.inr (Or.inl ⟨sector, freeMap1, hbmp, hadd⟩))⟩
  rename_i directory1 hadd
  split at h
  · rename_i halloc
    obtain rfl : evs = [] := by simpa using h.symm
    exact ⟨rfl, rfl, res, hg, hnull,
      Or.inr (Or.inr (Or.inr ⟨sector, freeMap1, directory1, hbmp, hadd, halloc⟩))⟩
  rename_i dataSectors freeMap2 halloc
  exact absurd h (by simp)

/-- Witness for claim C1: creating `a/` over the existing entry `a/`
fails and writes nothing. -/
theorem create_failure_writes_nothing_w :
    Create diskA "/a/" 0 = some (false, []) ∧
    List.foldl applyW diskA ([] : List WEvent) = diskA := by
  refine ⟨by decide, ?_⟩
  exact (create_failure_writes_nothing diskA "/a/" 0 [] (by decide)).2.1

/-- Claim C2: every `Create` that returns `true` went through a leaf not
already present, a granted header sector, a successful directory insert
and a successful data allocation, and its write-backs are, in order: the
new header to its sector, the containing directory, an empty directory
table into the new file exactly when the leaf name ends in the separator,
and finally the bitmap. -/
theorem create_success_writeback_order :
    ∀ (disk : Disk) (path : String) (n : Nat) (evs : List WEvent),
      Create disk path n = some (true, evs) →
      ∃ res sector freeMap1 directory1 dataSectors freeMap2,
        GoDirectory disk path = some res ∧
        res.handle ≠ DirHandle.null ∧
        dirFind (disk.dirs (hSector res.handle)) res.leaf = none ∧
        bmpFindAndSet disk.bitmap = some (sector, freeMap1) ∧
        dirAdd (disk.dirs (hSector res.handle)) res.leaf sector =
          some directory1 ∧
        hdrAllocate freeMap1 n = some (dataSectors, freeMap2) ∧
        evs = [WEvent.whdr sector ⟨n, dataSectors⟩,
               WEvent.wdir (hSector res.handle) directory1]
              ++ (if isDir res.leaf then [WEvent.wdir sector emptyDirTable]
                  else [])
              ++ [WEvent.wbmp freeMap2] := by
  intro disk path n evs h
  unfold Create at h
  split at h
  · exact absurd h (by simp)
  rename_i res hg
  split at h
  · exact absurd h (by simp)
  rename_i hnull
  split at h
  · rename_i v hfound
    exact absurd h (by simp)
  rename_i hfind
  split at h
  · exact absurd h (by simp)
  rename_i sector freeMap1 hbmp
  split at h
  · exact absurd h (by simp)
  rename_i directory1 hadd
  split at h
  · exact absurd h (by simp)
  rename_i dataSectors freeMap2 halloc
  refine ⟨res, sector, freeMap1, directory1, dataSectors, freeMap2,
    hg, hnull, hfind, hbmp, hadd, halloc, ?_⟩
  have h2 := h.symm
  simp only [Option.some.injEq, Prod.mk.injEq] at h2
  simpa using h2.2

/-- Witness for claim C2: creating the 100-byte plain file `f` in the
empty root succeeds with exactly the events of `evC2`. -/
theorem create_success_writeback_order_w :
    Create diskEmpty "/f" 100 = some (true, evC2) ∧
    (∃ res sector freeMap1 directory1 dataSectors freeMap2,
      GoDirectory diskEmpty "/f" = some res ∧
      res.handle ≠ DirHandle.null ∧
      dirFind (diskEmpty.dirs (hSector res.handle)) res.leaf = none ∧
      bmpFindAndSet diskEmpty.bitmap = some (sector, freeMap1) ∧
      dirAdd (diskEmpty.dirs (hSector res.handle)) res.leaf sector =
        some directory1 ∧
      hdrAllocate freeMap1 100 = some (dataSectors, freeMap2) ∧
      evC2 = [WEvent.whdr sector ⟨100, dataSectors⟩,
              WEvent.wdir (hSector res.handle) directory1]
             ++ (if isDir res.leaf then [WEvent.wdir sector emptyDirTable]
                 else [])
             ++ [WEvent.wbmp freeMap2]) :=
  ⟨by decide, create_success_writeback_order diskEmpty "/f" 100 evC2 (by decide)⟩

/-- Claim C9: `Seek` reports success (a positive result) and changes no
file, table, or disk state. -/
theorem seek_noop_success :
    ∀ (st : FSState) (position : Int) (fd : Nat),
      Seek st position fd = (1, st) ∧ 0 < (Seek st position fd).1 := by
  intro st position fd
  exact ⟨rfl, by simp [Seek]⟩

/-- Membership is preserved when a handle list possibly grows by a
transient handle. -/
theorem mem_addTransient {l : List DirHandle} {x : DirHandle}
    (cur : DirHandle) (hx : x ∈ l) : x ∈ addTransient l cur := by
  cases cur
  · exact hx
  · exact hx
  · exact List.mem_append_left _ hx

/-- The root handle never enters a handle list through `addTransient`. -/
theorem root_not_mem_addTransient {r : List DirHandle} (cur : DirHandle)
    (hr : DirHandle.root ∉ r) : DirHandle.root ∉ addTransient r cur := by
  cases cur
  · exact hr
  · exact hr
  · intro hmem
    rcases List.mem_append.mp hmem with hm | hm
    · exact hr hm
    · simp at hm

/-- A transient handle enters the list it is appended to. -/
theorem self_mem_addTransient (l : List DirHandle) (s : Nat) :
    DirHandle.transient s ∈ addTransient l (DirHandle.transient s) :=
  List.mem_append_right _ (List.mem_singleton.mpr rfl)

/-- Accounting invariant of the resolution loop: provided every handle
created so far is transient and is either released, leaked, or the
current one, and the root handle was never released, the same holds of
the final bookkeeping, with the returned handle in place of the current
one. -/
theorem goDirLoop_handle_accounting (disk : Disk) :
    ∀ (q : List String) (cur : DirHandle) (dir : DirTable) (ln : String)
      (c r l : List DirHandle) (res : GoResult),
      goDirLoop disk q cur dir ln c r l = some res →
      (∀ x ∈ c, (∃ s, x = DirHandle.transient s) ∧ (x ∈ r ∨ x ∈ l ∨ x = cur)) →
      DirHandle.root ∉ r →
      DirHandle.root ∉ res.released ∧
        ∀ x ∈ res.created, x ∈ res.released ∨ x ∈ res.leaked ∨ x = res.handle := by
  intro q
  induction q with
  | nil =>
    intro cur dir ln c r l res hres hinv hr
    rw [goDirLoop] at hres
    obtain rfl : (⟨cur, ln, c, r, l⟩ : GoResult) = res := Option.some.inj hres
    exact ⟨hr, fun x hx => (hinv x hx).2⟩
  | cons name queue ih =>
    intro cur dir ln c r l res hres hinv hr
    rw [goDirLoop] at hres
    by_cases h1 : name = "/"
    · rw [if_pos h1] at hres
      refine ih _ _ _ _ _ _ _ hres ?_ hr
      intro x hx
      obtain ⟨⟨s, rfl⟩, hmem⟩ := hinv x hx
      refine ⟨⟨s, rfl⟩, ?_⟩
      rcases hmem with hm | hm | hm
      · exact Or.inl hm
      · exact Or.inr (Or.inl (mem_addTransient cur hm))
      · rw [hm]
        exact Or.inr (Or.inl (by rw [← hm]; exact self_mem_addTransient l s))
    · rw [if_neg h1] at hres
      by_cases h2 : isDir name = true
      · rw [if_pos h2] at hres
        cases hf : dirFind dir name with
        | none =>
          rw [hf] at hres
          cases queue with
          | nil =>
            simp only [List.isEmpty_nil, if_pos] at hres
            obtain rfl : (⟨cur, name, c, r, l⟩ : GoResult) = res :=
              Option.some.inj hres
            exact ⟨hr, fun x hx => (hinv x hx).2⟩
          | cons a as => simp at hres
        | some s =>
          rw [hf] at hres
          cases queue with
          | nil =>
            simp only [List.isEmpty_nil, if_pos] at hres
            obtain rfl : (⟨cur, name, c, r, l⟩ : GoResult) = res :=
              Option.some.inj hres
            exact ⟨hr, fun x hx => (hinv x hx).2⟩
          | cons a as =>
            simp only [List.isEmpty_cons, Bool.false_eq_true, if_false] at hres
            refine ih _ _ _ _ _ _ _ hres ?_ (root_not_mem_addTransient cur hr)
            intro x hx
            rcases List.mem_append.mp hx with hx | hx
            · obtain ⟨⟨t, rfl⟩, hmem⟩ := hinv x hx
              refine ⟨⟨t, rfl⟩, ?_⟩
              rcases hmem with hm | hm | hm
              · exact Or.inl (mem_addTransient cur hm)
              · exact Or.inr (Or.inl hm)
              · rw [hm]
                exact Or.inl (by rw [← hm]; exact self_mem_addTransient r t)
            · simp only [List.mem_singleton] at hx
              exact ⟨⟨s, hx⟩, Or.inr (Or.inr hx)⟩
      · rw [if_neg h2] at hres
        cases queue with
        | nil =>
          simp only [List.isEmpty_nil, if_pos] at hres
          obtain rfl : (⟨cur, name, c, r, l⟩ : GoResult) = res :=
            Option.some.inj hres
          exact ⟨hr, fun x hx => (hinv x hx).2⟩
        | cons a as => simp at hres

/-- Claim C10 (amended): in `GoDirectory` resolution, a component equal
to `/` resets resolution to the root directory handle (leaking, not
releasing, a current transient handle); a directory component not found
with further components remaining, and a file component that is not last,
are fatal assertion failures; on every non-fatal resolution the root
handle is never released and every created intermediate handle is either
released, or leaked at a root-marker reset, or is the returned handle. -/
theorem goDirectory_resolution :
    (∀ (disk : Disk) (q : List String) (cur : DirHandle) (dir : DirTable)
       (ln : String) (c r l : List DirHandle),
       goDirLoop disk ("/" :: q) cur dir ln c r l =
         goDirLoop disk q DirHandle.root (disk.dirs DirectorySector) "/" c r
           (addTransient l cur)) ∧
    (∀ (disk : Disk) (name : String) (q : List String) (cur : DirHandle)
       (dir : DirTable) (ln : String) (c r l : List DirHandle),
       name ≠ "/" → isDir name = true → dirFind dir name = none → q ≠ [] →
       goDirLoop disk (name :: q) cur dir ln c r l = none) ∧
    (∀ (disk : Disk) (name : String) (q : List String) (cur : DirHandle)
       (dir : DirTable) (ln : String) (c r l : List DirHandle),
       name ≠ "/" → isDir name = false → q ≠ [] →
       goDirLoop disk (name :: q) cur dir ln c r l = none) ∧
    (∀ (disk : Disk) (path : String) (res : GoResult),
       GoDirectory disk path = some res →
       DirHandle.root ∉ res.released ∧
         ∀ x ∈ res.created, x ∈ res.released ∨ x ∈ res.leaked ∨ x = res.handle) := by
  refine ⟨?_, ?_, ?_, ?_⟩
  · intro disk q cur dir ln c r l
    rw [goDirLoop, if_pos rfl]
  · intro disk name q cur dir ln c r l hne hd hf hq
    cases q with
    | nil => exact absurd rfl hq
    | cons a as =>
      rw [goDirLoop, if_neg hne, if_pos hd, hf]
      simp
  · intro disk name q cur dir ln c r l hne hd hq
    cases q with
    | nil => exact absurd rfl hq
    | cons a as =>
      rw [goDirLoop, if_neg hne, if_neg (by simp [hd])]
      simp
  · intro disk path res hres
    exact goDirLoop_handle_accounting disk _ _ _ _ _ _ _ res hres
      (fun x hx => absurd hx (List.not_mem_nil x)) (List.not_mem_nil _)

/-- Counterexample to claim C10 as stated: resolving `/a//b` on a disk
whose root binds the sub-directory `a/` to sector 5 first descends into a
transient handle for sector 5, then meets a root-marker component, which
rebinds the current handle to the root directory without deleting the
previous one; the created intermediate non-root handle is not the
returned handle and the released list is empty — the handle is leaked,
not released. -/
theorem goDirectory_leak_cex :
    GoDirectory diskA "/a//b" =
      some ⟨DirHandle.root, "b", [DirHandle.transient 5], [],
        [DirHandle.transient 5]⟩ ∧
    DirHandle.transient 5 ≠ DirHandle.root := by
  decide

/-- Witness for claim C10 at concrete inputs: a directory component
missing from an empty table with a component after it is fatal, a file
component with a component after it is fatal, and a concrete non-fatal
resolution obeys the release/leak accounting. -/
theorem goDirectory_resolution_w :
    goDirLoop diskEmpty ["x/", "y"] DirHandle.null emptyDirTable "" [] [] []
      = none ∧
    goDirLoop diskEmpty ["y", "z"] DirHandle.root emptyDirTable "" [] [] []
      = none ∧
    (DirHandle.root ∉ ([] : List DirHandle) ∧
      ∀ x ∈ ([DirHandle.transient 5] : List DirHandle),
        x ∈ ([] : List DirHandle) ∨ x ∈ [DirHandle.transient 5] ∨
          x = DirHandle.root) := by
  refine ⟨?_, ?_, ?_⟩
  · exact goDirectory_resolution.2.1 diskEmpty "x/" ["y"] DirHandle.null
      emptyDirTable "" [] [] [] (by decide) (by decide) (by decide) (by decide)
  · exact goDirectory_resolution.2.2.1 diskEmpty "y" ["z"] DirHandle.root
      emptyDirTable "" [] [] [] (by decide) (by decide) (by decide)
  · exact goDirectory_resolution.2.2.2 diskA "/a//b"
      ⟨DirHandle.root, "b", [DirHandle.transient 5], [],
        [DirHandle.transient 5]⟩ (by decide)

end FS
